import Mathlib

/-!
Shallow embedding of `sushy_tools/emulator/resources/systems/libvirtbynamedriver.py`.

The module wraps every single-resource accessor of a libvirt-backed driver with
`wrapped_identity`, a decorator whose inner closure `identity_wrapper`
  * checks (on each call) that the wrapped function declares an `identity`
    parameter, raising `ValueError` otherwise,
  * collapses all positional arguments into the keyword-argument dict via
    `kwargs.update(dict(zip(arguments, args)))`,
  * invokes the function once; on `AliasAccessError err` it sets
    `kwargs['identity'] = str(err)` and invokes the function exactly once more,
    returning (or propagating) that second outcome,
and overrides the `systems` property to list libvirt domains by name.

Python dicts are modelled as association lists with first-occurrence lookup and
in-place assignment; Python call binding (`f(*args, **kwargs)`) is modelled by
`directCall`, including its `TypeError` conditions.  `AliasAccessError` is not
under the embedded sources. Modelled from the spec: the alias-redirect signal
"carries exactly one payload, the resolved canonical identifier (string)", so
`PyExc.aliasAccess` carries that string and `str(err)` is the payload itself.
-/

namespace LibvirtByName

/-- Opaque model of Python runtime values passed to / returned from accessors. -/
inductive PyVal where
  | str : String → PyVal
  | int : Int → PyVal
  | bool : Bool → PyVal
  | none : PyVal
  | obj : String → PyVal
deriving DecidableEq

/-- Python exceptions relevant to the module: the alias-redirect signal
(`AliasAccessError`, payload = `str(err)`), the decorator's `ValueError`,
call-binding `TypeError`s, and all other driver failures (NotFound, FishyError,
...) collapsed into `other`. -/
inductive PyExc where
  | aliasAccess : String → PyExc
  | valueError : String → PyExc
  | typeError : String → PyExc
  | other : String → PyExc
deriving DecidableEq

/-- A Python dict keyed by strings: association list, first occurrence wins. -/
def lookupKey : List (String × PyVal) → String → Option PyVal
  | [], _ => Option.none
  | kv :: rest, k => if kv.1 = k then some kv.2 else lookupKey rest k

/-- `d[k] = v` on a Python dict: replace the binding in place, else append. -/
def setKey : List (String × PyVal) → String → PyVal → List (String × PyVal)
  | [], k, v => [(k, v)]
  | kv :: rest, k, v => if kv.1 = k then (k, v) :: rest else kv :: setKey rest k v

/-- `d.update(u)`: assign every binding of `u` into `d`, in order. -/
def dictUpdate (d u : List (String × PyVal)) : List (String × PyVal) :=
  u.foldl (fun acc kv => setKey acc kv.1 kv.2) d

/-- `k in d` for a Python dict. -/
def hasKey (d : List (String × PyVal)) (k : String) : Bool :=
  (lookupKey d k).isSome

/-- A Python function as the wrapper sees it: `getfullargspec(func).args`
plus its behaviour once all arguments are bound by name. -/
structure PyFunc where
  params : List String
  impl : List (String × PyVal) → Except PyExc PyVal

def msgTooManyPositional : String := "too many positional arguments"
def msgMultipleValues : String := "got multiple values for argument"
def msgUnexpectedKeyword : String := "unexpected keyword argument"
def msgMissingArgument : String := "missing required argument"

/-- Python call `f(*args, **kwargs)`: bind positionals to the leading
parameters, keywords by name; raise `TypeError` on too many positionals, on a
parameter supplied both ways, on an unknown keyword, or on an unbound
parameter; otherwise run the function on the bound argument dict. -/
def directCall (f : PyFunc) (args : List PyVal) (kwargs : List (String × PyVal)) :
    Except PyExc PyVal :=
  if f.params.length < args.length then
    .error (.typeError msgTooManyPositional)
  else if (f.params.take args.length).any (fun p => hasKey kwargs p) then
    .error (.typeError msgMultipleValues)
  else if kwargs.any (fun kv => !(f.params.contains kv.1)) then
    .error (.typeError msgUnexpectedKeyword)
  else
    let bound := dictUpdate kwargs (f.params.zip args)
    if f.params.all (fun p => hasKey bound p) then f.impl bound
    else .error (.typeError msgMissingArgument)

/-- `kwargs.update(dict(zip(arguments, args))); args = ()` — the wrapper's
normalization of all arguments into a single keyword dict. -/
def normalizeArgs (params : List String) (args : List PyVal)
    (kwargs : List (String × PyVal)) : List (String × PyVal) :=
  dictUpdate kwargs (params.zip args)

def wrapErrMsg : String :=
  "functions decorated by wrapped_identity must take an argument named identity"

/-- The closure `identity_wrapper(*args, **kwargs)` produced by
`wrapped_identity(func)`: per-call `identity` check, argument normalization,
first invocation, and on `AliasAccessError err` a single retry with
`kwargs['identity'] = str(err)` whose outcome is returned or propagated. -/
def identity_wrapper (f : PyFunc) (args : List PyVal)
    (kwargs : List (String × PyVal)) : Except PyExc PyVal :=
  if f.params.contains "identity" then
    let kw := normalizeArgs f.params args kwargs
    match directCall f [] kw with
    | .error (.aliasAccess payload) =>
        directCall f [] (setKey kw "identity" (.str payload))
    | r => r
  else .error (.valueError wrapErrMsg)

/-- `identity_wrapper` instrumented with the list of keyword-argument dicts
passed to the underlying function, one entry per driver invocation. -/
def identity_wrapper_trace (f : PyFunc) (args : List PyVal)
    (kwargs : List (String × PyVal)) :
    Except PyExc PyVal × List (List (String × PyVal)) :=
  if f.params.contains "identity" then
    let kw := normalizeArgs f.params args kwargs
    match directCall f [] kw with
    | .error (.aliasAccess payload) =>
        let kw2 := setKey kw "identity" (.str payload)
        (directCall f [] kw2, [kw, kw2])
    | r => (r, [kw])
  else (.error (.valueError wrapErrMsg), [])

/-- The decorator `wrapped_identity(func)` itself: its body only defines and
returns the closure, so evaluating it can never raise. -/
def wrapped_identity (f : PyFunc) :
    Except PyExc (List PyVal → List (String × PyVal) → Except PyExc PyVal) :=
  .ok (identity_wrapper f)

/-- Whether applying the decorator completed without an exception. -/
def wrapSucceeds (f : PyFunc) : Bool :=
  match wrapped_identity f with
  | .ok _ => true
  | .error _ => false

/-- A libvirt domain handle as seen by `conn.listAllDomains()`. -/
structure Domain where
  name : String
  uuid : String
deriving DecidableEq

/-- The `systems` property:
`[domain.name() for domain in conn.listAllDomains()]`, where the connection
attempt / enumeration (`libvirt_open` + `listAllDomains`) either yields the
domain list or raises, and a raise propagates unchanged. -/
def systems (conn : Except PyExc (List Domain)) : Except PyExc (List String) :=
  match conn with
  | .ok domains => .ok (domains.map Domain.name)
  | .error e => .error e

/-! ### Basic dict lemmas -/

theorem lookupKey_setKey (d : List (String × PyVal)) (k : String) (v : PyVal)
    (k' : String) :
    lookupKey (setKey d k v) k' = if k' = k then some v else lookupKey d k' := by
  induction d with
  | nil =>
      by_cases h : k' = k <;> simp [setKey, lookupKey, h]
      intro h2
      exact absurd h2.symm h
  | cons kv rest ih =>
      by_cases hk : kv.1 = k
      · by_cases h : k' = k
        · simp [setKey, lookupKey, hk, h]
        · have h1 : ¬ kv.1 = k' := by
            rw [hk]; intro h2; exact h h2.symm
          have h2 : ¬ k = k' := fun he => h he.symm
          simp [setKey, lookupKey, hk, h, h1, h2]
      · by_cases hkv : kv.1 = k'
        · have : ¬ k' = k := by
            rw [← hkv]; intro h2; exact hk h2
          simp [setKey, lookupKey, hk, hkv, this]
        · simp [setKey, lookupKey, hk, hkv, ih]

theorem lookupKey_dictUpdate_not_mem (d u : List (String × PyVal)) (k : String)
    (h : ∀ kv ∈ u, kv.1 ≠ k) :
    lookupKey (dictUpdate d u) k = lookupKey d k := by
  induction u generalizing d with
  | nil => rfl
  | cons kv rest ih =>
      have hstep : dictUpdate d (kv :: rest) = dictUpdate (setKey d kv.1 kv.2) rest := rfl
      rw [hstep, ih _ (fun x hx => h x (List.mem_cons_of_mem _ hx)),
        lookupKey_setKey]
      have : ¬ k = kv.1 := fun h2 => h kv (List.mem_cons_self _ _) h2.symm
      simp [this]

theorem mem_setKey (d : List (String × PyVal)) (k : String) (v : PyVal)
    (kv : String × PyVal) (h : kv ∈ setKey d k v) : kv ∈ d ∨ kv = (k, v) := by
  induction d with
  | nil =>
      simp [setKey] at h
      exact Or.inr h
  | cons kv2 rest ih =>
      by_cases hk : kv2.1 = k
      · simp only [setKey, hk, if_pos rfl] at h
        rcases List.mem_cons.1 h with h1 | h1
        · exact Or.inr h1
        · exact Or.inl (List.mem_cons_of_mem _ h1)
      · simp only [setKey, hk, if_neg hk] at h
        rcases List.mem_cons.1 h with h1 | h1
        · exact Or.inl (h1 ▸ List.mem_cons_self _ _)
        · rcases ih h1 with h2 | h2
          · exact Or.inl (List.mem_cons_of_mem _ h2)
          · exact Or.inr h2

/-- Whether `f(**kwargs)` binds cleanly: every keyword names a declared
parameter and every declared parameter receives a value. -/
def bindsOk (f : PyFunc) (kwargs : List (String × PyVal)) : Bool :=
  kwargs.all (fun kv => f.params.contains kv.1) &&
    f.params.all (fun p => hasKey kwargs p)

theorem normalizeArgs_nil_args (params : List String)
    (kwargs : List (String × PyVal)) :
    normalizeArgs params [] kwargs = kwargs := by
  simp [normalizeArgs, dictUpdate, List.zip_nil_right]

theorem directCall_nil (f : PyFunc) (kw : List (String × PyVal)) :
    directCall f [] kw =
      if kw.any (fun kv => !(f.params.contains kv.1)) then
        .error (.typeError msgUnexpectedKeyword)
      else if f.params.all (fun p => hasKey kw p) then f.impl kw
      else .error (.typeError msgMissingArgument) := by
  simp [directCall, dictUpdate]

theorem directCall_nil_ok (f : PyFunc) (kw : List (String × PyVal))
    (h : bindsOk f kw = true) : directCall f [] kw = f.impl kw := by
  rcases Bool.and_eq_true_iff.1 h with ⟨h1, h2⟩
  rw [List.all_eq_true] at h1
  have hkey : (kw.any fun kv => !(f.params.contains kv.1)) = false := by
    rw [List.any_eq_false]
    intro kv hkv
    simpa using h1 kv hkv
  rw [directCall_nil, hkey, if_neg (by simp), h2, if_pos rfl]

theorem directCall_nil_not_binds (f : PyFunc) (kw : List (String × PyVal))
    (h : bindsOk f kw = false) :
    ∃ m, directCall f [] kw = .error (.typeError m) := by
  rcases Bool.and_eq_false_iff.1 h with h1 | h1
  · have hkey : (kw.any fun kv => !(f.params.contains kv.1)) = true := by
      rw [List.all_eq_false] at h1
      rcases h1 with ⟨kv, hkv, hmem⟩
      rw [List.any_eq_true]
      refine ⟨kv, hkv, ?_⟩
      simpa using hmem
    exact ⟨msgUnexpectedKeyword, by rw [directCall_nil, hkey, if_pos rfl]⟩
  · by_cases hkey : (kw.any fun kv => !(f.params.contains kv.1)) = true
    · exact ⟨msgUnexpectedKeyword, by rw [directCall_nil, hkey, if_pos rfl]⟩
    · refine ⟨msgMissingArgument, ?_⟩
      rw [Bool.not_eq_true] at hkey
      rw [directCall_nil, hkey, if_neg (by simp), h1, if_neg (by simp)]

theorem alias_of_directCall_nil (f : PyFunc) (kw : List (String × PyVal))
    (p : String) (h : directCall f [] kw = .error (.aliasAccess p)) :
    bindsOk f kw = true ∧ f.impl kw = .error (.aliasAccess p) := by
  rcases hb : bindsOk f kw with _ | _
  · rcases directCall_nil_not_binds f kw hb with ⟨m, hm⟩
    rw [hm] at h
    simp at h
  · exact ⟨rfl, by rw [← directCall_nil_ok f kw hb, h]⟩

theorem bindsOk_setKey (f : PyFunc) (kw : List (String × PyVal)) (k : String)
    (v : PyVal) (hk : f.params.contains k = true) (h : bindsOk f kw = true) :
    bindsOk f (setKey kw k v) = true := by
  rcases Bool.and_eq_true_iff.1 h with ⟨h1, h2⟩
  rw [List.all_eq_true] at h1 h2
  rw [bindsOk, Bool.and_eq_true_iff]
  constructor
  · rw [List.all_eq_true]
    intro kv hkv
    rcases mem_setKey kw k v kv hkv with hm | hm
    · exact h1 kv hm
    · rw [hm]; exact hk
  · rw [List.all_eq_true]
    intro p hp
    have := h2 p hp
    by_cases hpk : p = k <;> simp [hasKey, lookupKey_setKey, hpk] at this ⊢
    exact this

theorem identity_wrapper_trace_fst (f : PyFunc) (args : List PyVal)
    (kwargs : List (String × PyVal)) :
    (identity_wrapper_trace f args kwargs).1 = identity_wrapper f args kwargs := by
  unfold identity_wrapper_trace identity_wrapper
  by_cases h : f.params.contains "identity" <;> simp only [h]
  · rcases hD : directCall f [] (normalizeArgs f.params args kwargs) with e | v
    · cases e <;> simp [hD]
    · simp [hD]
  · rfl

theorem identity_wrapper_eq (f : PyFunc) (args : List PyVal)
    (kwargs : List (String × PyVal)) (hid : f.params.contains "identity" = true) :
    identity_wrapper f args kwargs =
      match directCall f [] (normalizeArgs f.params args kwargs) with
      | .error (.aliasAccess payload) =>
          directCall f []
            (setKey (normalizeArgs f.params args kwargs) "identity" (PyVal.str payload))
      | r => r := by
  have hid2 : "identity" ∈ f.params := by simpa using hid
  simp [identity_wrapper, hid2]

theorem identity_wrapper_trace_eq (f : PyFunc) (args : List PyVal)
    (kwargs : List (String × PyVal)) (hid : f.params.contains "identity" = true) :
    identity_wrapper_trace f args kwargs =
      match directCall f [] (normalizeArgs f.params args kwargs) with
      | .error (.aliasAccess payload) =>
          (directCall f []
            (setKey (normalizeArgs f.params args kwargs) "identity" (PyVal.str payload)),
           [normalizeArgs f.params args kwargs,
            setKey (normalizeArgs f.params args kwargs) "identity" (PyVal.str payload)])
      | r => (r, [normalizeArgs f.params args kwargs]) := by
  have hid2 : "identity" ∈ f.params := by simpa using hid
  simp [identity_wrapper_trace, hid2]

theorem get_mem_take {α : Type} (l : List α) (n i : Nat) (hp : i < l.length)
    (hn : i < n) : l.get ⟨i, hp⟩ ∈ l.take n := by
  induction l generalizing n i with
  | nil => simp at hp
  | cons a rest ih =>
      cases n with
      | zero => exact absurd hn (Nat.not_lt_zero i)
      | succ m =>
          cases i with
          | zero => simp [List.take]
          | succ j =>
              simp only [List.take, List.get_cons_succ, List.mem_cons]
              exact Or.inr (ih m j (Nat.lt_of_succ_lt_succ hp) (Nat.lt_of_succ_lt_succ hn))

theorem zip_take_length (l1 : List String) (l2 : List PyVal) :
    l1.zip l2 = l1.zip (l2.take l1.length) := by
  induction l1 generalizing l2 with
  | nil => simp
  | cons a rest ih =>
      cases l2 with
      | nil => simp
      | cons b rest2 =>
          simp only [List.zip_cons_cons, List.length_cons, List.take_succ_cons]
          rw [← ih]

theorem lookupKey_dictUpdate_zip (params : List String) (args : List PyVal)
    (d : List (String × PyVal)) (i : Nat) (hp : i < params.length)
    (hi : i < args.length) (hnodup : params.Nodup) :
    lookupKey (dictUpdate d (params.zip args)) (params.get ⟨i, hp⟩) =
      some (args.get ⟨i, hi⟩) := by
  induction params generalizing d args i with
  | nil => simp at hp
  | cons p ps ih =>
      cases args with
      | nil => simp at hi
      | cons a as =>
          rw [List.zip_cons_cons]
          have hstep : dictUpdate d ((p, a) :: ps.zip as) =
              dictUpdate (setKey d p a) (ps.zip as) := rfl
          rw [hstep]
          rcases List.nodup_cons.1 hnodup with ⟨hnotin, hnd⟩
          cases i with
          | zero =>
              have hnot : ∀ kv ∈ ps.zip as, kv.1 ≠ p := by
                rintro ⟨k1, v1⟩ hkv heq
                have hm := List.of_mem_zip hkv
                exact hnotin (heq ▸ hm.1)
              rw [show (p :: ps).get ⟨0, hp⟩ = p from rfl,
                show (a :: as).get ⟨0, hi⟩ = a from rfl,
                lookupKey_dictUpdate_not_mem _ _ _ hnot,
                lookupKey_setKey, if_pos rfl]
          | succ j =>
              have := ih as (setKey d p a) j (Nat.lt_of_succ_lt_succ hp)
                (Nat.lt_of_succ_lt_succ hi) hnd
              simpa using this

/-! ### Concrete driver stubs used in witnesses and counterexamples -/

/-- Stub driver that raises the alias-redirect signal on every invocation. -/
def alwaysAliasDriver : PyFunc :=
  ⟨["identity"], fun _ => .error (.aliasAccess "canonical-0")⟩

/-- Stub driver resolving alias `web-vm` to canonical id `uuid-1`, whose
canonical-id call reports power state `On`; anything else is NotFound. -/
def aliasedDriver : PyFunc :=
  ⟨["identity"], fun kw =>
    if lookupKey kw "identity" = some (PyVal.str "uuid-1") then .ok (PyVal.str "On")
    else if lookupKey kw "identity" = some (PyVal.str "web-vm") then
      .error (.aliasAccess "uuid-1")
    else .error (.other "NotFound")⟩

/-- Stub driver that fails with NotFound on every invocation. -/
def notFoundDriver : PyFunc := ⟨["identity"], fun _ => .error (.other "NotFound")⟩

/-- Stub driver that succeeds on every invocation. -/
def okDriver : PyFunc := ⟨["identity"], fun _ => .ok (PyVal.str "On")⟩

/-- Two-parameter stub driver that always raises the signal. -/
def twoParamAliasDriver : PyFunc :=
  ⟨["identity", "state"], fun _ => .error (.aliasAccess "uuid-1")⟩

/-- A function without an `identity` parameter. -/
def noIdentityFunc : PyFunc := ⟨["name"], fun _ => .ok (PyVal.str "ok")⟩

/-! ### The claims -/

/-- Claim C7: for every wrapped operation and argument list, if the first
driver invocation completes normally the wrapped operation returns that
invocation's result unchanged and makes no further driver call. -/
theorem wrapper_returns_first_success (f : PyFunc) (args : List PyVal)
    (kwargs : List (String × PyVal)) (v : PyVal)
    (hid : f.params.contains "identity" = true)
    (hok : directCall f [] (normalizeArgs f.params args kwargs) = .ok v) :
    identity_wrapper f args kwargs = .ok v ∧
    (identity_wrapper_trace f args kwargs).2 =
      [normalizeArgs f.params args kwargs] := by
  rw [identity_wrapper_eq f args kwargs hid,
    identity_wrapper_trace_eq f args kwargs hid, hok]
  exact ⟨rfl, rfl⟩

/-- Witness for C7 at a concrete driver and call. -/
theorem wrapper_returns_first_success_witness :
    identity_wrapper okDriver [PyVal.str "uuid-1"] [] = .ok (PyVal.str "On") ∧
    (identity_wrapper_trace okDriver [PyVal.str "uuid-1"] []).2 =
      [normalizeArgs okDriver.params [PyVal.str "uuid-1"] []] :=
  wrapper_returns_first_success okDriver [PyVal.str "uuid-1"] []
    (PyVal.str "On") rfl rfl

/-- Claim C5: if the first driver invocation fails with anything other than
the alias-redirect signal, that failure propagates to the caller unmodified
and no retry is attempted: the driver is invoked exactly once. -/
theorem wrapper_no_retry_on_other_failure (f : PyFunc) (args : List PyVal)
    (kwargs : List (String × PyVal)) (e : PyExc)
    (hid : f.params.contains "identity" = true)
    (hfail : directCall f [] (normalizeArgs f.params args kwargs) = .error e)
    (hnotalias : ∀ p, e ≠ PyExc.aliasAccess p) :
    identity_wrapper f args kwargs = .error e ∧
    (identity_wrapper_trace f args kwargs).2 =
      [normalizeArgs f.params args kwargs] := by
  rw [identity_wrapper_eq f args kwargs hid,
    identity_wrapper_trace_eq f args kwargs hid, hfail]
  rcases e with p | m | m | m
  · exact absurd rfl (hnotalias p)
  · exact ⟨rfl, rfl⟩
  · exact ⟨rfl, rfl⟩
  · exact ⟨rfl, rfl⟩

/-- Witness for C5: a NotFound failure propagates with a single invocation. -/
theorem wrapper_no_retry_on_other_failure_witness :
    identity_wrapper notFoundDriver [PyVal.str "ghost-vm"] [] =
      .error (.other "NotFound") ∧
    (identity_wrapper_trace notFoundDriver [PyVal.str "ghost-vm"] []).2 =
      [normalizeArgs notFoundDriver.params [PyVal.str "ghost-vm"] []] :=
  wrapper_no_retry_on_other_failure notFoundDriver [PyVal.str "ghost-vm"] []
    (PyExc.other "NotFound") rfl rfl (fun _ h => PyExc.noConfusion h)

/-- Claim C2: the wrapper invokes the underlying driver at most twice on any
call; against a driver that raises the alias-redirect signal on every
(well-bound) invocation it makes exactly two driver invocations and then
returns or propagates the second invocation's outcome, with no further
retry. -/
theorem wrapper_two_invocations (f : PyFunc) (args : List PyVal)
    (kwargs : List (String × PyVal)) :
    ((identity_wrapper_trace f args kwargs).2).length ≤ 2 ∧
    (f.params.contains "identity" = true →
      bindsOk f (normalizeArgs f.params args kwargs) = true →
      (∀ kw, bindsOk f kw = true → ∃ p, f.impl kw = .error (.aliasAccess p)) →
      ((identity_wrapper_trace f args kwargs).2).length = 2 ∧
      identity_wrapper f args kwargs =
        directCall f []
          (((identity_wrapper_trace f args kwargs).2).getLastD [])) := by
  constructor
  · by_cases hid : f.params.contains "identity" = true
    · rw [identity_wrapper_trace_eq f args kwargs hid]
      rcases directCall f [] (normalizeArgs f.params args kwargs) with e | v
      · cases e <;> simp
      · simp
    · have hid2 : "identity" ∉ f.params := by
        rw [Bool.not_eq_true] at hid
        simpa using hid
      simp [identity_wrapper_trace, hid2]
  · intro hid hbind hsig
    obtain ⟨p, hp⟩ := hsig _ hbind
    have hD : directCall f [] (normalizeArgs f.params args kwargs) =
        .error (.aliasAccess p) := by
      rw [directCall_nil_ok _ _ hbind, hp]
    rw [identity_wrapper_eq f args kwargs hid,
      identity_wrapper_trace_eq f args kwargs hid, hD]
    exact ⟨rfl, rfl⟩

/-- Witness for C2: the always-signalling stub is invoked exactly twice and
the second outcome is what the wrapped call produces. -/
theorem wrapper_two_invocations_witness :
    ((identity_wrapper_trace alwaysAliasDriver [PyVal.str "web-vm"] []).2).length = 2 ∧
    identity_wrapper alwaysAliasDriver [PyVal.str "web-vm"] [] =
      directCall alwaysAliasDriver []
        (((identity_wrapper_trace alwaysAliasDriver [PyVal.str "web-vm"] []).2).getLastD []) :=
  (wrapper_two_invocations alwaysAliasDriver [PyVal.str "web-vm"] []).2 rfl rfl
    (fun _ _ => ⟨"canonical-0", rfl⟩)

/-- Counterexample to claim C4 as stated: against a driver that raises the
alias-redirect signal on every invocation, the second (retry) invocation's
signal is not caught and escapes to the caller of the wrapped operation. -/
theorem alias_signal_escapes_counterexample :
    identity_wrapper alwaysAliasDriver [PyVal.str "web-vm"] [] =
      .error (.aliasAccess "canonical-0") := rfl

/-- Claim C4 (amended): the alias-redirect signal raised by the first driver
invocation is always consumed inside the wrapper; a signal reaches the caller
only as the outcome of the second (retry) invocation, whose arguments carry
the first signal's payload as `identity`. -/
theorem alias_signal_escape_only_from_retry (f : PyFunc) (args : List PyVal)
    (kwargs : List (String × PyVal)) (p : String)
    (h : identity_wrapper f args kwargs = .error (.aliasAccess p)) :
    ∃ q, directCall f [] (normalizeArgs f.params args kwargs) =
        .error (.aliasAccess q) ∧
      directCall f []
        (setKey (normalizeArgs f.params args kwargs) "identity" (PyVal.str q)) =
        .error (.aliasAccess p) := by
  by_cases hid : f.params.contains "identity" = true
  · rw [identity_wrapper_eq f args kwargs hid] at h
    rcases hD : directCall f [] (normalizeArgs f.params args kwargs) with e | v
    · rcases e with q | m | m | m
      · rw [hD] at h
        exact ⟨q, rfl, h⟩
      all_goals (rw [hD] at h; exact absurd h (by simp))
    · rw [hD] at h
      exact absurd h (by simp)
  · rw [Bool.not_eq_true] at hid
    rw [identity_wrapper, hid] at h
    simp [wrapErrMsg] at h

/-- Witness for the amended C4 at the always-signalling stub. -/
theorem alias_signal_escape_only_from_retry_witness :
    directCall alwaysAliasDriver []
        (normalizeArgs alwaysAliasDriver.params [PyVal.str "web-vm"] []) =
      .error (.aliasAccess "canonical-0") ∧
    directCall alwaysAliasDriver []
        (setKey (normalizeArgs alwaysAliasDriver.params [PyVal.str "web-vm"] [])
          "identity" (PyVal.str "canonical-0")) =
      .error (.aliasAccess "canonical-0") := by
  obtain ⟨q, h1, h2⟩ := alias_signal_escape_only_from_retry alwaysAliasDriver
    [PyVal.str "web-vm"] [] "canonical-0" rfl
  have h0 : directCall alwaysAliasDriver []
      (normalizeArgs alwaysAliasDriver.params [PyVal.str "web-vm"] []) =
      .error (.aliasAccess "canonical-0") := rfl
  have hq : q = "canonical-0" := by
    have h3 := h1.symm.trans h0
    simpa using h3
  subst hq
  exact ⟨h1, h2⟩

/-- Claim C6: when the first invocation raises the alias-redirect signal, the
second invocation's argument set is the normalized first-invocation argument
set with `identity` (however the caller supplied it) replaced by the signal's
payload, and every other argument unchanged. -/
theorem retry_replaces_identity_only (f : PyFunc) (args : List PyVal)
    (kwargs : List (String × PyVal)) (p : String)
    (hid : f.params.contains "identity" = true)
    (hsig : directCall f [] (normalizeArgs f.params args kwargs) =
      .error (.aliasAccess p)) :
    (identity_wrapper_trace f args kwargs).2 =
      [normalizeArgs f.params args kwargs,
       setKey (normalizeArgs f.params args kwargs) "identity" (PyVal.str p)] ∧
    lookupKey (setKey (normalizeArgs f.params args kwargs) "identity"
        (PyVal.str p)) "identity" = some (PyVal.str p) ∧
    ∀ k, k ≠ "identity" →
      lookupKey (setKey (normalizeArgs f.params args kwargs) "identity"
          (PyVal.str p)) k =
        lookupKey (normalizeArgs f.params args kwargs) k := by
  refine ⟨?_, ?_, ?_⟩
  · rw [identity_wrapper_trace_eq f args kwargs hid, hsig]
  · rw [lookupKey_setKey, if_pos rfl]
  · intro k hk
    rw [lookupKey_setKey, if_neg hk]

/-- Witness for C6: a call supplying `identity` positionally and `state` by
keyword; the retry set replaces only `identity`. -/
theorem retry_replaces_identity_only_witness :
    (identity_wrapper_trace twoParamAliasDriver [PyVal.str "web-vm"]
        [("state", PyVal.str "On")]).2 =
      [normalizeArgs twoParamAliasDriver.params [PyVal.str "web-vm"]
         [("state", PyVal.str "On")],
       setKey (normalizeArgs twoParamAliasDriver.params [PyVal.str "web-vm"]
         [("state", PyVal.str "On")]) "identity" (PyVal.str "uuid-1")] ∧
    lookupKey (setKey (normalizeArgs twoParamAliasDriver.params
        [PyVal.str "web-vm"] [("state", PyVal.str "On")]) "identity"
        (PyVal.str "uuid-1")) "identity" = some (PyVal.str "uuid-1") ∧
    lookupKey (setKey (normalizeArgs twoParamAliasDriver.params
        [PyVal.str "web-vm"] [("state", PyVal.str "On")]) "identity"
        (PyVal.str "uuid-1")) "state" =
      lookupKey (normalizeArgs twoParamAliasDriver.params [PyVal.str "web-vm"]
        [("state", PyVal.str "On")]) "state" := by
  obtain ⟨h1, h2, h3⟩ := retry_replaces_identity_only twoParamAliasDriver
    [PyVal.str "web-vm"] [("state", PyVal.str "On")] "uuid-1" rfl rfl
  exact ⟨h1, h2, h3 "state" (by decide)⟩

/-- Claim C1: for a driver that redirects alias `A` to canonical id `C` and
never redirects `C` itself, calling the wrapped operation with identity `A`
returns the same result as calling it with identity `C` and the same other
arguments. -/
theorem wrapper_alias_transparent (f : PyFunc) (A C : String)
    (argsA argsC : List PyVal) (kwargsA kwargsC : List (String × PyVal))
    (hid : f.params.contains "identity" = true)
    (halias : ∀ kw, lookupKey kw "identity" = some (PyVal.str A) →
      f.impl kw = .error (.aliasAccess C))
    (hC : ∀ kw p, lookupKey kw "identity" = some (PyVal.str C) →
      f.impl kw ≠ .error (.aliasAccess p))
    (hbindA : bindsOk f (normalizeArgs f.params argsA kwargsA) = true)
    (hA : lookupKey (normalizeArgs f.params argsA kwargsA) "identity" =
      some (PyVal.str A))
    (hsame : normalizeArgs f.params argsC kwargsC =
      setKey (normalizeArgs f.params argsA kwargsA) "identity" (PyVal.str C)) :
    identity_wrapper f argsA kwargsA = identity_wrapper f argsC kwargsC := by
  have hD1 : directCall f [] (normalizeArgs f.params argsA kwargsA) =
      .error (.aliasAccess C) := by
    rw [directCall_nil_ok _ _ hbindA]
    exact halias _ hA
  have hbC : bindsOk f (setKey (normalizeArgs f.params argsA kwargsA)
      "identity" (PyVal.str C)) = true :=
    bindsOk_setKey f _ "identity" (PyVal.str C) hid hbindA
  have hlookC : lookupKey (setKey (normalizeArgs f.params argsA kwargsA)
      "identity" (PyVal.str C)) "identity" = some (PyVal.str C) := by
    rw [lookupKey_setKey, if_pos rfl]
  have hD2 : directCall f [] (setKey (normalizeArgs f.params argsA kwargsA)
      "identity" (PyVal.str C)) =
      f.impl (setKey (normalizeArgs f.params argsA kwargsA) "identity"
        (PyVal.str C)) := directCall_nil_ok _ _ hbC
  have hL : identity_wrapper f argsA kwargsA =
      f.impl (setKey (normalizeArgs f.params argsA kwargsA) "identity"
        (PyVal.str C)) := by
    rw [identity_wrapper_eq f argsA kwargsA hid, hD1]
    exact hD2
  have hR : identity_wrapper f argsC kwargsC =
      f.impl (setKey (normalizeArgs f.params argsA kwargsA) "identity"
        (PyVal.str C)) := by
    rw [identity_wrapper_eq f argsC kwargsC hid, hsame, hD2]
    rcases hI : f.impl (setKey (normalizeArgs f.params argsA kwargsA)
        "identity" (PyVal.str C)) with e | v
    · rcases e with q | m | m | m
      · exact absurd hI (hC _ q hlookC)
      all_goals rfl
    · rfl
  rw [hL, hR]

/-- Witness for C1: `get_power_state("web-vm")` equals
`get_power_state("uuid-1")` on the aliased stub driver. -/
theorem wrapper_alias_transparent_witness :
    identity_wrapper aliasedDriver [PyVal.str "web-vm"] [] =
      identity_wrapper aliasedDriver [PyVal.str "uuid-1"] [] :=
  wrapper_alias_transparent aliasedDriver "web-vm" "uuid-1"
    [PyVal.str "web-vm"] [PyVal.str "uuid-1"] [] [] rfl
    (fun kw h => by simp [aliasedDriver, h])
    (fun kw p h => by simp [aliasedDriver, h])
    rfl rfl rfl

/-- Counterexample to claim C3 as stated: applying the decorator to a function
without an `identity` parameter succeeds — no error is raised at wrap time;
the configuration `ValueError` appears only when the wrapped operation is
called. -/
theorem wrap_time_check_counterexample :
    wrapSucceeds noIdentityFunc = true ∧
    identity_wrapper noIdentityFunc [PyVal.str "x"] [] =
      .error (.valueError wrapErrMsg) :=
  ⟨rfl, rfl⟩

/-- Claim C3 (amended): wrapping any function always succeeds at wrap time;
for a function without an `identity` parameter the configuration error
(`ValueError`) is raised at call time, on every call of the wrapped
operation, before any driver invocation is made. -/
theorem wrap_check_at_call_time (f : PyFunc)
    (h : f.params.contains "identity" = false) (args : List PyVal)
    (kwargs : List (String × PyVal)) :
    wrapSucceeds f = true ∧
    identity_wrapper f args kwargs = .error (.valueError wrapErrMsg) ∧
    (identity_wrapper_trace f args kwargs).2 = [] := by
  refine ⟨rfl, ?_, ?_⟩
  · unfold identity_wrapper
    rw [h]
    rfl
  · unfold identity_wrapper_trace
    rw [h]
    rfl

/-- Witness for the amended C3 at a concrete identity-less function. -/
theorem wrap_check_at_call_time_witness :
    wrapSucceeds noIdentityFunc = true ∧
    identity_wrapper noIdentityFunc [PyVal.str "a", PyVal.str "b"] [] =
      .error (.valueError wrapErrMsg) ∧
    (identity_wrapper_trace noIdentityFunc [PyVal.str "a", PyVal.str "b"] []).2 = [] :=
  wrap_check_at_call_time noIdentityFunc rfl [PyVal.str "a", PyVal.str "b"] []

/-- Claim C8: `systems` returns exactly one display name per domain of the
canonical enumeration, in the enumeration's order (element `i` of the output
is the name of domain `i`), so the cardinalities agree and no sort is
imposed; an enumeration failure propagates unchanged. -/
theorem systems_alias_enumeration (conn : Except PyExc (List Domain)) :
    (∀ ds, conn = .ok ds →
      systems conn = .ok (ds.map Domain.name) ∧
      (ds.map Domain.name).length = ds.length ∧
      ∀ i : Nat, (ds.map Domain.name)[i]? = (ds[i]?).map Domain.name) ∧
    (∀ e, conn = .error e → systems conn = .error e) := by
  constructor
  · rintro ds rfl
    refine ⟨rfl, by simp, ?_⟩
    intro i
    simp [List.getElem?_map]

  · rintro e rfl
    rfl

/-- Concrete enumeration for the C8 witness. -/
def demoDomains : List Domain := [⟨"web-vm", "uuid-1"⟩, ⟨"db-vm", "uuid-2"⟩]

/-- Witness for C8: two domains project to their two names in order, and a
connection failure propagates. -/
theorem systems_alias_enumeration_witness :
    systems (.ok demoDomains) = .ok ["web-vm", "db-vm"] ∧
    systems (.error (.other "connection failed")) =
      .error (.other "connection failed") := by
  constructor
  · have h := ((systems_alias_enumeration (.ok demoDomains)).1 demoDomains rfl).1
    simpa [demoDomains] using h
  · exact (systems_alias_enumeration (.error (.other "connection failed"))).2 _ rfl

/-- Claim C9: a parameter supplied both positionally and by keyword makes a
direct unwrapped call fail with a duplicate-argument `TypeError`, while the
wrapped call does not: the positional value silently overwrites the keyword
value in the normalized argument set, and the wrapped call behaves exactly as
a call supplying that merged keyword set alone. -/
theorem positional_overrides_keyword (f : PyFunc) (args : List PyVal)
    (kwargs : List (String × PyVal)) (i : Nat) (hp : i < f.params.length)
    (hnodup : f.params.Nodup) (hi : i < args.length)
    (hlen : args.length ≤ f.params.length)
    (hdup : hasKey kwargs (f.params.get ⟨i, hp⟩) = true) :
    directCall f args kwargs = .error (.typeError msgMultipleValues) ∧
    lookupKey (normalizeArgs f.params args kwargs) (f.params.get ⟨i, hp⟩) =
      some (args.get ⟨i, hi⟩) ∧
    identity_wrapper f args kwargs =
      identity_wrapper f [] (normalizeArgs f.params args kwargs) := by
  refine ⟨?_, ?_, ?_⟩
  · have hany : ((f.params.take args.length).any fun p => hasKey kwargs p) = true := by
      rw [List.any_eq_true]
      exact ⟨f.params.get ⟨i, hp⟩, get_mem_take f.params args.length i hp hi, hdup⟩
    unfold directCall
    rw [if_neg (Nat.not_lt.2 hlen), if_pos hany]
  · exact lookupKey_dictUpdate_zip f.params args kwargs i hp hi hnodup
  · by_cases hid : f.params.contains "identity" = true
    · rw [identity_wrapper_eq f args kwargs hid,
        identity_wrapper_eq f [] (normalizeArgs f.params args kwargs) hid,
        normalizeArgs_nil_args]
    · rw [Bool.not_eq_true] at hid
      unfold identity_wrapper
      rw [hid]
      rfl

/-- Witness for C9: `identity` passed both positionally and as a keyword. -/
theorem positional_overrides_keyword_witness :
    directCall twoParamAliasDriver [PyVal.str "web-vm", PyVal.str "On"]
        [("identity", PyVal.str "zzz")] =
      .error (.typeError msgMultipleValues) ∧
    lookupKey (normalizeArgs twoParamAliasDriver.params
        [PyVal.str "web-vm", PyVal.str "On"] [("identity", PyVal.str "zzz")])
        "identity" = some (PyVal.str "web-vm") ∧
    identity_wrapper twoParamAliasDriver [PyVal.str "web-vm", PyVal.str "On"]
        [("identity", PyVal.str "zzz")] =
      identity_wrapper twoParamAliasDriver []
        (normalizeArgs twoParamAliasDriver.params
          [PyVal.str "web-vm", PyVal.str "On"] [("identity", PyVal.str "zzz")]) :=
  positional_overrides_keyword twoParamAliasDriver
    [PyVal.str "web-vm", PyVal.str "On"] [("identity", PyVal.str "zzz")] 0
    (by decide) (by decide) (by decide) (by decide) rfl

/-- Claim C10: positional arguments beyond the declared parameter list make a
direct unwrapped call fail with a too-many-arguments `TypeError`, while the
wrapper's normalization silently discards them: the wrapped call and its
driver-invocation trace are identical to those of the call with the excess
arguments dropped. -/
theorem extra_positionals_discarded (f : PyFunc) (args : List PyVal)
    (kwargs : List (String × PyVal)) (hlen : f.params.length < args.length) :
    directCall f args kwargs = .error (.typeError msgTooManyPositional) ∧
    normalizeArgs f.params args kwargs =
      normalizeArgs f.params (args.take f.params.length) kwargs ∧
    identity_wrapper f args kwargs =
      identity_wrapper f (args.take f.params.length) kwargs ∧
    (identity_wrapper_trace f args kwargs).2 =
      (identity_wrapper_trace f (args.take f.params.length) kwargs).2 := by
  have hnorm : normalizeArgs f.params args kwargs =
      normalizeArgs f.params (args.take f.params.length) kwargs := by
    unfold normalizeArgs
    rw [← zip_take_length]
  refine ⟨?_, hnorm, ?_, ?_⟩
  · unfold directCall
    rw [if_pos hlen]
  · unfold identity_wrapper
    rw [hnorm]
  · unfold identity_wrapper_trace
    rw [hnorm]

/-- Witness for C10: one excess positional argument. -/
theorem extra_positionals_discarded_witness :
    directCall okDriver [PyVal.str "uuid-1", PyVal.str "extra"] [] =
      .error (.typeError msgTooManyPositional) ∧
    normalizeArgs okDriver.params [PyVal.str "uuid-1", PyVal.str "extra"] [] =
      normalizeArgs okDriver.params
        ([PyVal.str "uuid-1", PyVal.str "extra"].take okDriver.params.length) [] ∧
    identity_wrapper okDriver [PyVal.str "uuid-1", PyVal.str "extra"] [] =
      identity_wrapper okDriver
        ([PyVal.str "uuid-1", PyVal.str "extra"].take okDriver.params.length) [] ∧
    (identity_wrapper_trace okDriver [PyVal.str "uuid-1", PyVal.str "extra"] []).2 =
      (identity_wrapper_trace okDriver
        ([PyVal.str "uuid-1", PyVal.str "extra"].take okDriver.params.length) []).2 :=
  extra_positionals_discarded okDriver [PyVal.str "uuid-1", PyVal.str "extra"] []
    (by decide)

end LibvirtByName
